import Mathlib

/-
Verification of the keyword-filter repository layer (fastapi_repository/base.py).

The embedding models column values, entity descriptors, the operator table,
the per-key filter compiler, query generation with default scope, and the
CRUD operations, over a backing store represented as a list of rows.
The relational mapping layer (SQLAlchemy) is an external collaborator; its
attribute-resolution interface is modelled from the specification (section 6):
named attributes resolve to column references or relationship attributes, and
relationship attributes carry a target entity descriptor.
-/

namespace FastapiRepository

/-- Primitive column values: integers, strings, booleans and NULL. -/
inductive Prim where
  | int (n : Int)
  | str (s : String)
  | bool (b : Bool)
  | null
deriving DecidableEq, Repr

/-- A value supplied in a filter expression or stored in a column: either a
primitive or (for the membership operator) a sequence of primitives. -/
inductive Value where
  | prim (p : Prim)
  | list (l : List Prim)
deriving DecidableEq, Repr

/-- Shorthand constructor for integer values. -/
def Value.int (n : Int) : Value := .prim (.int n)

/-- Shorthand constructor for string values. -/
def Value.str (s : String) : Value := .prim (.str s)

/-- Shorthand constructor for boolean values. -/
def Value.bool (b : Bool) : Value := .prim (.bool b)

/-- Single-quote character, used to build the error messages of the source
without writing the character inline. -/
def squote : String := String.singleton (Char.ofNat 39)

/-- Python str() rendering of a primitive, for interpolated error messages. -/
def Prim.pyStr : Prim → String
  | .int n => toString n
  | .str s => s
  | .bool b => if b then "True" else "False"
  | .null => "None"

/-- Python repr() rendering of a primitive. -/
def Prim.pyRepr : Prim → String
  | .str s => squote ++ s ++ squote
  | p => p.pyStr

/-- Comma-separated join, as Python uses between collection elements. -/
def joinComma : List String → String
  | [] => ""
  | [s] => s
  | s :: rest => s ++ ", " ++ joinComma rest

/-- Python str() rendering of a value. -/
def Value.pyStr : Value → String
  | .prim p => p.pyStr
  | .list l => "[" ++ joinComma (l.map Prim.pyRepr) ++ "]"

/-- Python repr() rendering of a value. -/
def Value.pyRepr : Value → String
  | .prim p => p.pyRepr
  | .list l => "[" ++ joinComma (l.map Prim.pyRepr) ++ "]"

/-- Python dict repr of keyword search parameters, as interpolated into the
not-found message of find_by_or_raise. -/
def pyReprParams (params : List (String × Value)) : String :=
  "\x7b" ++ joinComma (params.map fun kv => squote ++ kv.1 ++ squote ++ ": " ++ kv.2.pyRepr) ++ "\x7d"

/-- Descriptor of the target entity of a relationship: its type name and
column names. Modelled from the spec (section 6): the mapping layer resolves
a relationship to its target entity type and resolves named columns on it. -/
structure TargetDesc where
  name : String
  columns : List String
deriving DecidableEq, Repr

/-- Descriptor of the mapped entity a repository operates over: type name,
column names, and named relationships with their target descriptors.
Modelled from the spec (section 6 and section 9, dynamic attribute
resolution as an explicit per-entity lookup table). -/
structure ModelDesc where
  name : String
  columns : List String
  relationships : List (String × TargetDesc)
deriving DecidableEq, Repr

/-- Result of resolving a name on an entity descriptor: a column reference or
a true relationship attribute carrying its target descriptor. -/
inductive Attr where
  | column
  | rel (target : TargetDesc)
deriving DecidableEq, Repr

/-- Attribute resolution, the model of getattr(model, name, None): some
attribute when the name is a column or relationship of the entity, none
otherwise. The source tests whether a resolved attribute is a true
relationship; in this model that test distinguishes the two Attr cases,
per the interface the spec gives the mapping layer in section 6. -/
def ModelDesc.getAttr (m : ModelDesc) (name : String) : Option Attr :=
  if m.columns.contains name then some .column
  else
    match m.relationships.lookup name with
    | some t => some (.rel t)
    | none => none

/-- Names of the operator table OPERATORS in base.py, in source order. -/
def OPERATORS : List String :=
  ["exact", "iexact", "contains", "icontains", "in",
   "gt", "gte", "lt", "lte",
   "startswith", "istartswith", "endswith", "iendswith"]

/-- Compiled filter condition, the model of the SQLAlchemy expressions the
source builds: an implicit-equality condition from a bare key, an operator
condition on an own column, or an existential condition over a one-hop
relationship (rel_attr.any applied to an operator condition on a target
column). -/
inductive Cond where
  | eqCol (col : String) (val : Value)
  | op (col : String) (opName : String) (val : Value)
  | anyRel (relName : String) (targetCol : String) (opName : String) (val : Value)
deriving DecidableEq, Repr

/-- Row of a relationship target table: its column values by name. -/
structure TargetRow where
  fields : List (String × Value)
deriving DecidableEq, Repr

/-- Row of the repository entity table: its column values by name, and for
each relationship name the related target rows. -/
structure Row where
  fields : List (String × Value)
  related : List (String × List TargetRow)
deriving DecidableEq, Repr

/-- Decidable equality for Except results, used to evaluate the operations on
concrete inputs. -/
instance {ε α : Type} [DecidableEq ε] [DecidableEq α] : DecidableEq (Except ε α) := fun a b =>
  match a, b with
  | .error e, .error f =>
      if h : e = f then isTrue (by rw [h]) else isFalse (by simp [h])
  | .ok x, .ok y =>
      if h : x = y then isTrue (by rw [h]) else isFalse (by simp [h])
  | .error _, .ok _ => isFalse (by simp)
  | .ok _, .error _ => isFalse (by simp)

/-- Splitting a character list on the double-underscore separator, the model
of the split in the source, written by structural recursion so that it
evaluates on concrete keys: occurrences are consumed left to right and do
not overlap. -/
def splitDunderChars (acc : List Char) : List Char → List (List Char)
  | [] => [acc.reverse]
  | '_' :: '_' :: rest => acc.reverse :: splitDunderChars [] rest
  | c :: rest => splitDunderChars (c :: acc) rest

/-- Splitting a key on the double-underscore separator. -/
def splitDunder (s : String) : List String :=
  (splitDunderChars [] s.toList).map List.asString

/-- Lowercasing of one ASCII character, the model of str.lower on the
character sets the source deals with, written to evaluate on concrete
strings. -/
def lowerChar (c : Char) : Char :=
  if c.isUpper then Char.ofNat (c.toNat + 32) else c

/-- Lowercasing of a string. -/
def lowerStr (s : String) : String :=
  (s.toList.map lowerChar).asString

/-- Bool test that needle is an initial run of hay. -/
def charsLead : List Char → List Char → Bool
  | [], _ => true
  | _ :: _, [] => false
  | a :: as_, b :: bs => a == b && charsLead as_ bs

/-- Substring scan over character lists. -/
def charsSub (needle : List Char) : List Char → Bool
  | [] => charsLead needle []
  | hay@(_ :: t) => charsLead needle hay || charsSub needle t

/-- Substring containment of needle in hay. -/
def strContains (hay needle : String) : Bool :=
  charsSub needle.toList hay.toList

/-- Bool test that s starts with pre. -/
def strStarts (s pre : String) : Bool :=
  charsLead pre.toList s.toList

/-- Bool test that s ends with suf. -/
def strEnds (s suf : String) : Bool :=
  charsLead suf.toList.reverse s.toList.reverse

/-- Strict comparison of primitives, the model of the SQL comparison the
comparison operators compile to; modelled from the spec (ordering
comparisons), defined on like-typed numbers and strings. -/
def primLt : Prim → Prim → Bool
  | .int a, .int b => decide (a < b)
  | .str a, .str b => decide (a < b)
  | _, _ => false

/-- Non-strict comparison of primitives. -/
def primLe : Prim → Prim → Bool
  | .int a, .int b => decide (a ≤ b)
  | .str a, .str b => decide (a ≤ b)
  | _, _ => false

/-- Semantics of one operator-table entry applied to a stored column value x
and the supplied filter value. Each case is modelled from the lambda in
OPERATORS of base.py together with the semantics table of spec section 4.1:
equality, case-insensitive matches via lowercasing, substring containment,
membership (a non-sequence value is wrapped into a one-element list, as the
source branches on isinstance(val, list)), ordering comparisons, and
prefix/suffix matches. -/
def evalOp (opName : String) (x val : Value) : Bool :=
  match opName with
  | "exact" => decide (x = val)
  | "iexact" =>
      match x, val with
      | .prim (.str a), .prim (.str b) => decide (lowerStr a = lowerStr b)
      | _, _ => false
  | "contains" =>
      match x, val with
      | .prim (.str a), .prim (.str b) => strContains a b
      | _, _ => false
  | "icontains" =>
      match x, val with
      | .prim (.str a), .prim (.str b) => strContains (lowerStr a) (lowerStr b)
      | _, _ => false
  | "in" =>
      match val with
      | .list l =>
          match x with
          | .prim p => decide (p ∈ l)
          | .list _ => false
      | .prim p => decide (x = Value.prim p)
  | "gt" =>
      match x, val with
      | .prim a, .prim b => primLt b a
      | _, _ => false
  | "gte" =>
      match x, val with
      | .prim a, .prim b => primLe b a
      | _, _ => false
  | "lt" =>
      match x, val with
      | .prim a, .prim b => primLt a b
      | _, _ => false
  | "lte" =>
      match x, val with
      | .prim a, .prim b => primLe a b
      | _, _ => false
  | "startswith" =>
      match x, val with
      | .prim (.str a), .prim (.str b) => strStarts a b
      | _, _ => false
  | "istartswith" =>
      match x, val with
      | .prim (.str a), .prim (.str b) => strStarts (lowerStr a) (lowerStr b)
      | _, _ => false
  | "endswith" =>
      match x, val with
      | .prim (.str a), .prim (.str b) => strEnds a b
      | _, _ => false
  | "iendswith" =>
      match x, val with
      | .prim (.str a), .prim (.str b) => strEnds (lowerStr a) (lowerStr b)
      | _, _ => false
  | _ => false

/-- Evaluation of an operator condition on one target-table row. -/
def evalTargetOp (opName : String) (t : TargetRow) (targetCol : String) (val : Value) : Bool :=
  match t.fields.lookup targetCol with
  | some x => evalOp opName x val
  | none => false

/-- Truth of a compiled condition on one entity row. The anyRel case is the
existential semantics of rel_attr.any: at least one related row satisfies
the inner operator condition. -/
def evalCond (r : Row) : Cond → Bool
  | .eqCol c v =>
      match r.fields.lookup c with
      | some x => decide (x = v)
      | none => false
  | .op c o v =>
      match r.fields.lookup c with
      | some x => evalOp o x v
      | none => false
  | .anyRel rel tc o v =>
      match r.related.lookup rel with
      | some children => children.any fun t => evalTargetOp o t tc v
      | none => false

/-- Errors raised by the repository: AttributeError for resolution failures
and NoResultFound for not-found failures, each carrying the message the
source interpolates. -/
inductive RepoError where
  | attributeError (msg : String)
  | noResultFound (msg : String)
deriving DecidableEq, Repr

/-- Resolution-error message of the source, f-string
"{entity} has no attribute {name}" with the name in single quotes. -/
def noAttrMsg (entity attr : String) : String :=
  entity ++ " has no attribute " ++ squote ++ attr ++ squote

/-- Resolution-error message of the source, f-string
"{entity} has no relationship {name}" with the name in single quotes. -/
def noRelMsg (entity rel : String) : String :=
  entity ++ " has no relationship " ++ squote ++ rel ++ squote

/-- Trailing-operator extraction from the split key, the model of
"op = parts.pop() if parts[-1] in OPERATORS else (op stays exact)"
in __get_conditions. -/
def popOp (parts : List String) : String × List String :=
  match parts.getLast? with
  | some l => if OPERATORS.contains l then (l, parts.dropLast) else ("exact", parts)
  | none => ("exact", parts)

/-- Compilation of one filter key/value pair, the per-key body of the loop in
__get_conditions of base.py: a key without the separator is implicit
equality on an own attribute; otherwise the key is split on the separator,
a trailing operator name is popped (default exact), one remaining segment
is an own-column condition, and two or more remaining segments are treated
as a one-hop relationship condition built from the first two segments. -/
def compileKey (m : ModelDesc) (key : String) (value : Value) : Except RepoError Cond :=
  let parts := splitDunder key
  if parts.length ≤ 1 then
    match m.getAttr key with
    | none => .error (.attributeError (noAttrMsg m.name key))
    | some _ => .ok (.eqCol key value)
  else
    match popOp parts with
    | (op, [p0]) =>
        match m.getAttr p0 with
        | none => .error (.attributeError (noAttrMsg m.name p0))
        | some _ => .ok (.op p0 op value)
    | (op, p0 :: p1 :: _) =>
        match m.getAttr p0 with
        | some (.rel t) =>
            if t.columns.contains p1 then .ok (.anyRel p0 p1 op value)
            else .error (.attributeError (noAttrMsg t.name p1))
        | _ => .error (.attributeError (noRelMsg m.name p0))
    | (_, []) =>
        -- unreachable: a key containing the separator splits into at least
        -- two parts, so at least one remains after popping the operator
        .error (.attributeError (noAttrMsg m.name key))

/-- Conditions compiled from all search parameters in order, the model of
__get_conditions: the first resolution failure aborts compilation. -/
def __get_conditions (m : ModelDesc) : List (String × Value) → Except RepoError (List Cond)
  | [] => .ok []
  | (k, v) :: rest =>
      match compileKey m k v with
      | .error e => .error e
      | .ok c =>
          match __get_conditions m rest with
          | .error e => .error e
          | .ok cs => .ok (c :: cs)

/-- Query descriptor assembled by __generate_query: compiled conditions,
eager/lazy load hints, optional ordering column with direction (true is
ascending), and limit/offset. -/
structure Query where
  conditions : List Cond
  joinedloadOpts : List String
  lazyloadOpts : List String
  orderBy : Option (String × Bool)
  limitN : Nat
  offsetN : Nat
deriving DecidableEq, Repr

/-- Repository state: the entity descriptor and the per-repository default
scope, a mapping of always-applied filter expressions. The source requires
the model at construction; the structure requires it by construction. -/
structure BaseRepository where
  model : ModelDesc
  default_scope : List (String × Value)
deriving DecidableEq, Repr

/-- Ordering application, the model of _apply_order_by: the sort column must
resolve on the entity descriptor, else AttributeError; the direction is
ascending exactly when the lowercased sorted_order equals "asc". -/
def _apply_order_by (m : ModelDesc) (q : Query) (sorted_by : String) (sorted_order : String) :
    Except RepoError Query :=
  match m.getAttr sorted_by with
  | none => .error (.attributeError (noAttrMsg m.name sorted_by))
  | some _ =>
      if lowerStr sorted_order == "asc" then .ok { q with orderBy := some (sorted_by, true) }
      else .ok { q with orderBy := some (sorted_by, false) }

/-- Query generation, the model of __generate_query: default-scope conditions
are compiled and included unless disabled, explicit conditions follow them,
then load hints, optional ordering, and limit/offset are attached. -/
def __generate_query (repo : BaseRepository) (limit offset : Nat) (sorted_by : Option String)
    (sorted_order : String) (joinedload_models lazyload_models : List String)
    (disable_default_scope : Bool) (search_params : List (String × Value)) :
    Except RepoError Query :=
  match (if disable_default_scope then Except.ok [] else __get_conditions repo.model repo.default_scope) with
  | .error e => .error e
  | .ok defaultConds =>
      match __get_conditions repo.model search_params with
      | .error e => .error e
      | .ok explicit =>
          let q : Query :=
            { conditions := defaultConds ++ explicit,
              joinedloadOpts := joinedload_models,
              lazyloadOpts := lazyload_models,
              orderBy := none,
              limitN := limit,
              offsetN := offset }
          match sorted_by with
          | some sb => _apply_order_by repo.model q sb sorted_order
          | none => .ok q

/-- Total comparison of primitives used to model the ORDER BY the backing
store applies; modelled from the spec, which leaves SQL collation to the
external engine: like-typed values compare naturally, unlike-typed values
compare by a fixed rank. -/
def primRank : Prim → Nat
  | .null => 0
  | .int _ => 1
  | .str _ => 2
  | .bool _ => 3

/-- Total order on primitives for sorting. -/
def primLeTotal (a b : Prim) : Bool :=
  match a, b with
  | .int x, .int y => decide (x ≤ y)
  | .str x, .str y => decide (x ≤ y)
  | .bool x, .bool y => !x || y
  | _, _ => decide (primRank a ≤ primRank b)

/-- Total order on values for sorting. -/
def valueLeTotal (a b : Value) : Bool :=
  match a, b with
  | .prim x, .prim y => primLeTotal x y
  | .prim _, .list _ => true
  | .list _, .prim _ => false
  | .list _, .list _ => true

/-- Comparison of two rows on one sort column; absent values sort first. -/
def rowColLe (col : String) (a b : Row) : Bool :=
  match a.fields.lookup col, b.fields.lookup col with
  | none, _ => true
  | some _, none => false
  | some x, some y => valueLeTotal x y

/-- Row comparison in the requested direction. -/
def rowLe (col : String) (asc : Bool) (a b : Row) : Bool :=
  if asc then rowColLe col a b else rowColLe col b a

/-- Ordered insertion for the sorting model. -/
def insertLe {α : Type} (le : α → α → Bool) (x : α) : List α → List α
  | [] => [x]
  | y :: ys => if le x y then x :: y :: ys else y :: insertLe le x ys

/-- Stable insertion sort for the sorting model. -/
def sortLe {α : Type} (le : α → α → Bool) : List α → List α
  | [] => []
  | x :: xs => insertLe le x (sortLe le xs)

/-- Execution of a query descriptor against the backing table: rows passing
every condition (logical AND), then ordering, then OFFSET and LIMIT. -/
def runQuery (db : List Row) (q : Query) : List Row :=
  let filtered := db.filter fun r => q.conditions.all fun c => evalCond r c
  let ordered :=
    match q.orderBy with
    | none => filtered
    | some (col, asc) => sortLe (rowLe col asc) filtered
  (ordered.drop q.offsetN).take q.limitN

/-- Lookup by primary key, the model of find: a single-row query filtered by
id (plus default scope unless disabled); NoResultFound with the id in the
message when no row comes back. -/
def find (repo : BaseRepository) (db : List Row) (id : Value) (sorted_by : Option String)
    (sorted_order : String) (joinedload_models lazyload_models : List String)
    (disable_default_scope : Bool) : Except RepoError Row :=
  match __generate_query repo 1 0 sorted_by sorted_order joinedload_models
      lazyload_models disable_default_scope [("id", id)] with
  | .error e => .error e
  | .ok q =>
      match (runQuery db q).head? with
      | some inst => .ok inst
      | none => .error (.noResultFound (repo.model.name ++ " with id " ++ id.pyStr ++ " not found."))

/-- Lookup by filter expressions, the model of find_by: the first match, or
none without an error when nothing matches. -/
def find_by (repo : BaseRepository) (db : List Row) (sorted_by : Option String)
    (sorted_order : String) (joinedload_models lazyload_models : List String)
    (disable_default_scope : Bool) (search_params : List (String × Value)) :
    Except RepoError (Option Row) :=
  match __generate_query repo 1 0 sorted_by sorted_order joinedload_models
      lazyload_models disable_default_scope search_params with
  | .error e => .error e
  | .ok q => .ok (runQuery db q).head?

/-- Raising lookup, the model of find_by_or_raise: wraps find_by and raises
NoResultFound naming the entity and the filter set when nothing matched. -/
def find_by_or_raise (repo : BaseRepository) (db : List Row) (sorted_by : Option String)
    (sorted_order : String) (joinedload_models lazyload_models : List String)
    (disable_default_scope : Bool) (search_params : List (String × Value)) :
    Except RepoError Row :=
  match find_by repo db sorted_by sorted_order joinedload_models lazyload_models
      disable_default_scope search_params with
  | .error e => .error e
  | .ok (some inst) => .ok inst
  | .ok none =>
      .error (.noResultFound
        (repo.model.name ++ " with attributes " ++ pyReprParams search_params ++ " not found."))

/-- Filtered listing, the model of where (a Lean keyword, hence the trailing
underscore): all matches respecting pagination and ordering. -/
def where_ (repo : BaseRepository) (db : List Row) (limit offset : Nat)
    (sorted_by : Option String) (sorted_order : String)
    (joinedload_models lazyload_models : List String)
    (disable_default_scope : Bool) (search_params : List (String × Value)) :
    Except RepoError (List Row) :=
  match __generate_query repo limit offset sorted_by sorted_order joinedload_models
      lazyload_models disable_default_scope search_params with
  | .error e => .error e
  | .ok q => .ok (runQuery db q)

/-- Counting, the model of count: default-scope conditions unless disabled,
then explicit conditions, and the number of rows passing all of them. The
emptiness guard of the source before extending with default conditions has
no effect on the resulting list and is dropped. -/
def count (repo : BaseRepository) (db : List Row) (disable_default_scope : Bool)
    (search_params : List (String × Value)) : Except RepoError Nat :=
  match (if disable_default_scope then Except.ok [] else __get_conditions repo.model repo.default_scope) with
  | .error e => .error e
  | .ok defaultConds =>
      match __get_conditions repo.model search_params with
      | .error e => .error e
      | .ok explicit =>
          let conds := defaultConds ++ explicit
          .ok (db.filter fun r => conds.all fun c => evalCond r c).length

/-- Existence test, the model of exists (a Lean keyword, hence the trailing
underscore): true exactly when count is positive. -/
def exists_ (repo : BaseRepository) (db : List Row) (disable_default_scope : Bool)
    (search_params : List (String × Value)) : Except RepoError Bool :=
  match count repo db disable_default_scope search_params with
  | .error e => .error e
  | .ok n => .ok (decide (n > 0))

/-- Assignment of one field on a stored field list, the model of setattr. -/
def setField : List (String × Value) → String → Value → List (String × Value)
  | [], k, v => [(k, v)]
  | (k0, v0) :: rest, k, v =>
      if k0 = k then (k0, v) :: rest else (k0, v0) :: setField rest k v

/-- Assignments applied in the given order, as update applies its keyword
parameters. -/
def setFields (fields : List (String × Value)) (updates : List (String × Value)) :
    List (String × Value) :=
  updates.foldl (fun fs kv => setField fs kv.1 kv.2) fields

/-- Replacement of the first occurrence of a row, the list model of mutating
the instance find returned. -/
def replaceFirst : List Row → Row → Row → List Row
  | [], _, _ => []
  | r :: rest, old, updated =>
      if r = old then updated :: rest else r :: replaceFirst rest old updated

/-- Removal of the first occurrence of a row, the list model of deleting the
instance find returned. -/
def removeFirst : List Row → Row → List Row
  | [], _ => []
  | r :: rest, old => if r = old then rest else r :: removeFirst rest old

/-- Single-row update, the model of update: locate via find (default scope
enabled, no disable parameter exists), apply each assignment in order,
return the updated entity and the new table state. -/
def update (repo : BaseRepository) (db : List Row) (id : Value)
    (update_params : List (String × Value)) : Except RepoError (Row × List Row) :=
  match find repo db id none "asc" [] [] false with
  | .error e => .error e
  | .ok inst =>
      let updated : Row := { inst with fields := setFields inst.fields update_params }
      .ok (updated, replaceFirst db inst updated)

/-- Bulk update, the model of update_all: conditions are compiled from the
explicit search parameters only (the default scope is never consulted), one
statement updates every matching row, and the matched row count is
returned with the new table state. -/
def update_all (repo : BaseRepository) (db : List Row) (updates : List (String × Value))
    (search_params : List (String × Value)) : Except RepoError (Nat × List Row) :=
  match __get_conditions repo.model search_params with
  | .error e => .error e
  | .ok conditions =>
      let hit := fun r => conditions.all fun c => evalCond r c
      .ok ((db.filter hit).length,
           db.map fun r => if hit r then { r with fields := setFields r.fields updates } else r)

/-- Single-row deletion, the model of destroy: locate via find (default scope
enabled, no disable parameter exists) and delete that row. -/
def destroy (repo : BaseRepository) (db : List Row) (id : Value) :
    Except RepoError (List Row) :=
  match find repo db id none "asc" [] [] false with
  | .error e => .error e
  | .ok inst => .ok (removeFirst db inst)

/-- Bulk deletion, the model of destroy_all: conditions from the explicit
search parameters only, one statement deletes every matching row, and the
deleted row count is returned with the new table state. -/
def destroy_all (repo : BaseRepository) (db : List Row)
    (search_params : List (String × Value)) : Except RepoError (Nat × List Row) :=
  match __get_conditions repo.model search_params with
  | .error e => .error e
  | .ok conditions =>
      let hit := fun r => conditions.all fun c => evalCond r c
      .ok ((db.filter hit).length, db.filter fun r => !(hit r))

/-- Target descriptor of the sample relationship, a Post entity. -/
def postDesc : TargetDesc :=
  { name := "Post", columns := ["id", "title", "user_id"] }

/-- Sample entity descriptor mirroring the User model of the test suite, with
a one-hop relationship to Post. -/
def userModel : ModelDesc :=
  { name := "User",
    columns := ["id", "name", "age", "email", "hashed_password", "is_active", "failed_attempts"],
    relationships := [("posts", postDesc)] }

/-- Sample repository with an empty default scope. -/
def userRepo : BaseRepository :=
  { model := userModel, default_scope := [] }

/-- Sample repository whose default scope keeps only active users. -/
def scopedUserRepo : BaseRepository :=
  { model := userModel, default_scope := [("is_active", Value.bool true)] }

/-- Sample active row with one related post. -/
def aliceRow : Row :=
  { fields := [("id", Value.int 1), ("name", Value.str "Alice"), ("age", Value.int 30),
               ("is_active", Value.bool true)],
    related := [("posts", [{ fields := [("id", Value.int 10), ("title", Value.str "Hello")] }])] }

/-- Sample inactive row with no related posts. -/
def bobRow : Row :=
  { fields := [("id", Value.int 2), ("name", Value.str "Bob"), ("age", Value.int 18),
               ("is_active", Value.bool false)],
    related := [("posts", [])] }

/-- Unfolding of compileKey when the key holds no separator: the condition is
implicit equality on the key as an own attribute. -/
theorem compileKey_bare (m : ModelDesc) (k : String) (v : Value)
    (hlen : (splitDunder k).length ≤ 1) :
    compileKey m k v =
      match m.getAttr k with
      | none => .error (.attributeError (noAttrMsg m.name k))
      | some _ => .ok (.eqCol k v) := by
  simp only [compileKey, if_pos hlen]

/-- Unfolding of compileKey when one segment remains after popping the
operator: the condition is built by the operator on an own attribute. -/
theorem compileKey_of_single (m : ModelDesc) (k : String) (v : Value) (op p0 : String)
    (hlen : ¬((splitDunder k).length ≤ 1))
    (hpop : popOp (splitDunder k) = (op, [p0])) :
    compileKey m k v =
      match m.getAttr p0 with
      | none => .error (.attributeError (noAttrMsg m.name p0))
      | some _ => .ok (.op p0 op v) := by
  simp only [compileKey, if_neg hlen, hpop]

/-- Unfolding of compileKey when two or more segments remain after popping
the operator: the first two are used as relationship and target field, the
rest are ignored. -/
theorem compileKey_of_hop (m : ModelDesc) (k : String) (v : Value) (op p0 p1 : String)
    (tail : List String)
    (hlen : ¬((splitDunder k).length ≤ 1))
    (hpop : popOp (splitDunder k) = (op, p0 :: p1 :: tail)) :
    compileKey m k v =
      match m.getAttr p0 with
      | some (.rel t) =>
          if t.columns.contains p1 then .ok (.anyRel p0 p1 op v)
          else .error (.attributeError (noAttrMsg t.name p1))
      | _ => .error (.attributeError (noRelMsg m.name p0)) := by
  simp only [compileKey, if_neg hlen, hpop]

/-- Behaviour of popOp when the trailing segment is an operator name. -/
theorem popOp_pops (parts : List String) (l : String)
    (hlast : parts.getLast? = some l) (hin : OPERATORS.contains l = true) :
    popOp parts = (l, parts.dropLast) := by
  simp only [popOp, hlast, hin, if_pos]

/-- Behaviour of popOp when the trailing segment is not an operator name. -/
theorem popOp_keeps (parts : List String) (l : String)
    (hlast : parts.getLast? = some l) (hin : OPERATORS.contains l = false) :
    popOp parts = ("exact", parts) := by
  simp only [popOp, hlast, hin]
  simp

/-- Error propagation through __get_conditions: once a key in the parameter
list fails to compile (every earlier key compiling), the whole compilation
returns that error. -/
theorem __get_conditions_error_append (m : ModelDesc) (pre : List (String × Value))
    (cs : List Cond) (k : String) (v : Value) (rest : List (String × Value)) (e : RepoError)
    (hpre : __get_conditions m pre = .ok cs) (hk : compileKey m k v = .error e) :
    __get_conditions m (pre ++ (k, v) :: rest) = .error e := by
  induction pre generalizing cs with
  | nil => simp only [List.nil_append, __get_conditions, hk]
  | cons hd tl ih =>
      obtain ⟨k0, v0⟩ := hd
      simp only [__get_conditions, List.cons_append, List.append_eq] at hpre ⊢
      cases hc : compileKey m k0 v0 with
      | error e0 => simp_all
      | ok c0 =>
          cases ht : __get_conditions m tl with
          | error e0 => simp_all
          | ok cs0 =>
              have hrec := ih cs0 ht
              simp_all

/-- A query whose conditions reject every row returns no rows. -/
theorem runQuery_eq_nil (db : List Row) (q : Query)
    (h : ∀ r ∈ db, (q.conditions.all fun c => evalCond r c) = false) :
    runQuery db q = [] := by
  have hfil : (db.filter fun r => q.conditions.all fun c => evalCond r c) = [] := by
    rw [List.filter_eq_nil_iff]
    intro r hr
    simp [h r hr]
  simp only [runQuery, hfil]
  cases q.orderBy with
  | none => simp
  | some ob => obtain ⟨c, a⟩ := ob; simp [sortLe]

/-- Propagation of a parameter-compilation error through find_by: the
operation fails with the same error for every backing table. -/
theorem find_by_params_error (repo : BaseRepository) (db : List Row)
    (sorted_by : Option String) (so : String) (jl ll : List String)
    (dconds : List Cond) (params : List (String × Value)) (e : RepoError)
    (hds : __get_conditions repo.model repo.default_scope = .ok dconds)
    (hparams : __get_conditions repo.model params = .error e) :
    find_by repo db sorted_by so jl ll false params = .error e := by
  simp [find_by, __generate_query, hds, hparams]

/-- C1: update_all and destroy_all compile only the explicitly supplied
filter expressions — replacing the default scope leaves both unchanged and
their behaviour depends solely on the explicit conditions — whereas the
read path (find, find_by, find_by_or_raise and where route through
__generate_query; count, used also by exists) merges the default-scope
conditions in front of the explicit ones unless disable_default_scope is
true, in which case only the explicit ones remain. update and destroy
locate via find with the merge enabled. -/
theorem scope_asymmetry_bulk_vs_read
    (repo : BaseRepository) (db : List Row) (updates params : List (String × Value))
    (scope2 : List (String × Value)) (dconds econds : List Cond)
    (hd : __get_conditions repo.model repo.default_scope = .ok dconds)
    (he : __get_conditions repo.model params = .ok econds) :
    update_all { repo with default_scope := scope2 } db updates params
        = update_all repo db updates params
    ∧ destroy_all { repo with default_scope := scope2 } db params
        = destroy_all repo db params
    ∧ update_all repo db updates params
        = .ok ((db.filter fun r => econds.all fun c => evalCond r c).length,
               db.map fun r =>
                 if econds.all fun c => evalCond r c
                 then { r with fields := setFields r.fields updates } else r)
    ∧ destroy_all repo db params
        = .ok ((db.filter fun r => econds.all fun c => evalCond r c).length,
               db.filter fun r => !(econds.all fun c => evalCond r c))
    ∧ (∀ lim off jl ll, __generate_query repo lim off none "asc" jl ll false params
        = .ok { conditions := dconds ++ econds, joinedloadOpts := jl, lazyloadOpts := ll,
                orderBy := none, limitN := lim, offsetN := off })
    ∧ (∀ lim off jl ll, __generate_query repo lim off none "asc" jl ll true params
        = .ok { conditions := econds, joinedloadOpts := jl, lazyloadOpts := ll,
                orderBy := none, limitN := lim, offsetN := off })
    ∧ count repo db false params
        = .ok ((db.filter fun r => (dconds ++ econds).all fun c => evalCond r c).length)
    ∧ count repo db true params
        = .ok ((db.filter fun r => econds.all fun c => evalCond r c).length)
    ∧ (∀ (db2 : List Row) (lim off : Nat),
        where_ repo db2 lim off none "asc" [] [] false params
          = .ok (((db2.filter fun r => (dconds ++ econds).all fun c => evalCond r c).drop off).take lim))
    ∧ (∀ (db2 : List Row) (lim off : Nat),
        where_ repo db2 lim off none "asc" [] [] true params
          = .ok (((db2.filter fun r => econds.all fun c => evalCond r c).drop off).take lim))
    ∧ (∀ db2 : List Row,
        find_by repo db2 none "asc" [] [] false params
          = .ok ((db2.filter fun r => (dconds ++ econds).all fun c => evalCond r c).take 1).head?) := by
  refine ⟨rfl, rfl, ?_, ?_, ?_, ?_, ?_, ?_, ?_, ?_, ?_⟩
  · simp [update_all, he]
  · simp [destroy_all, he]
  · intro lim off jl ll
    simp [__generate_query, hd, he]
  · intro lim off jl ll
    simp [__generate_query, he]
  · simp [count, hd, he]
  · simp [count, he]
  · intro db2 lim off
    simp [where_, __generate_query, hd, he, runQuery]
  · intro db2 lim off
    simp [where_, __generate_query, he, runQuery]
  · intro db2
    simp [find_by, __generate_query, hd, he, runQuery]

/-- Witness for the C1 theorem at the sample scoped repository: the default
scope compiles to an is_active condition, yet update_all with disabled-scope
semantics never sees it, while the generated read query carries it. -/
theorem scope_asymmetry_bulk_vs_read_witness :
    __generate_query scopedUserRepo 5 2 none "asc" [] [] false [("age", Value.int 18)]
      = .ok { conditions := [.eqCol "is_active" (Value.bool true), .eqCol "age" (Value.int 18)],
              joinedloadOpts := [], lazyloadOpts := [], orderBy := none,
              limitN := 5, offsetN := 2 } := by
  exact (scope_asymmetry_bulk_vs_read scopedUserRepo [bobRow] [] [("age", Value.int 18)] []
    [.eqCol "is_active" (Value.bool true)] [.eqCol "age" (Value.int 18)]
    (by decide) (by decide)).2.2.2.2.1 5 2 [] []

/-- C2: a filter key whose field name does not resolve (bare key, or single
remaining segment after popping an operator), a one-hop key whose
target-entity field does not resolve, and an unresolvable sorted_by field
each make the operation fail with an AttributeError whose message carries
the entity type name and the offending name; the result is the same for
every backing table, so the failure happens before any query is executed,
and the faulty key is neither dropped nor defaulted to equality. -/
theorem resolution_error_before_query
    (repo : BaseRepository) (dconds : List Cond)
    (hds : __get_conditions repo.model repo.default_scope = .ok dconds)
    (pre : List (String × Value)) (cs : List Cond)
    (hpre : __get_conditions repo.model pre = .ok cs)
    (k : String) (v : Value) (rest : List (String × Value)) :
    (splitDunder k = [k] → repo.model.getAttr k = none →
      ∀ db : List Row,
        find_by repo db none "asc" [] [] false (pre ++ (k, v) :: rest)
          = .error (.attributeError (noAttrMsg repo.model.name k)))
    ∧ (∀ p0 opn, splitDunder k = [p0, opn] → OPERATORS.contains opn = true →
        repo.model.getAttr p0 = none →
        ∀ db : List Row,
          find_by repo db none "asc" [] [] false (pre ++ (k, v) :: rest)
            = .error (.attributeError (noAttrMsg repo.model.name p0)))
    ∧ (∀ p0 p1 t, splitDunder k = [p0, p1] → OPERATORS.contains p1 = false →
        repo.model.getAttr p0 = some (.rel t) → t.columns.contains p1 = false →
        ∀ db : List Row,
          find_by repo db none "asc" [] [] false (pre ++ (k, v) :: rest)
            = .error (.attributeError (noAttrMsg t.name p1)))
    ∧ (∀ sb, repo.model.getAttr sb = none →
        ∀ (db : List Row) (params : List (String × Value)) (cs2 : List Cond),
          __get_conditions repo.model params = .ok cs2 →
          find_by repo db (some sb) "asc" [] [] false params
            = .error (.attributeError (noAttrMsg repo.model.name sb))) := by
  refine ⟨?_, ?_, ?_, ?_⟩
  · intro hsplit hattr db
    have hkey : compileKey repo.model k v
        = .error (.attributeError (noAttrMsg repo.model.name k)) := by
      rw [compileKey_bare repo.model k v (by rw [hsplit]; simp), hattr]
    exact find_by_params_error repo db none "asc" [] [] dconds _ _ hds
      (__get_conditions_error_append repo.model pre cs k v rest _ hpre hkey)
  · intro p0 opn hsplit hop hattr db
    have hpop : popOp (splitDunder k) = (opn, [p0]) := by
      rw [hsplit]
      rw [popOp_pops [p0, opn] opn (by simp) hop]
      simp
    have hkey : compileKey repo.model k v
        = .error (.attributeError (noAttrMsg repo.model.name p0)) := by
      rw [compileKey_of_single repo.model k v opn p0 (by rw [hsplit]; simp) hpop, hattr]
    exact find_by_params_error repo db none "asc" [] [] dconds _ _ hds
      (__get_conditions_error_append repo.model pre cs k v rest _ hpre hkey)
  · intro p0 p1 t hsplit hnotop hattr hcol db
    have hpop : popOp (splitDunder k) = ("exact", [p0, p1]) := by
      rw [hsplit]
      exact popOp_keeps [p0, p1] p1 (by simp) hnotop
    have hkey : compileKey repo.model k v
        = .error (.attributeError (noAttrMsg t.name p1)) := by
      rw [compileKey_of_hop repo.model k v "exact" p0 p1 [] (by rw [hsplit]; simp) hpop,
        hattr]
      simp at hcol
      simp [hcol]
    exact find_by_params_error repo db none "asc" [] [] dconds _ _ hds
      (__get_conditions_error_append repo.model pre cs k v rest _ hpre hkey)
  · intro sb hattr db params cs2 hparams
    simp [find_by, __generate_query, hds, hparams, _apply_order_by, hattr]

/-- Witness for the C2 theorem: a nonexistent bare field, a nonexistent field
under a known operator, a nonexistent target field on the posts
relationship, and a nonexistent sort column each raise the AttributeError
naming the entity and the name on the sample repository with an empty
backing table. -/
theorem resolution_error_before_query_witness :
    find_by scopedUserRepo [] none "asc" [] [] false [("nope", Value.int 1)]
        = .error (.attributeError (noAttrMsg "User" "nope"))
    ∧ find_by scopedUserRepo [] none "asc" [] [] false [("nope__gte", Value.int 1)]
        = .error (.attributeError (noAttrMsg "User" "nope"))
    ∧ find_by scopedUserRepo [] none "asc" [] [] false [("posts__missing", Value.int 1)]
        = .error (.attributeError (noAttrMsg "Post" "missing"))
    ∧ find_by scopedUserRepo [] (some "nosuch") "asc" [] [] false []
        = .error (.attributeError (noAttrMsg "User" "nosuch")) := by
  refine ⟨?_, ?_, ?_, ?_⟩
  · exact (resolution_error_before_query scopedUserRepo
      [.eqCol "is_active" (Value.bool true)] (by decide) [] [] (by decide)
      "nope" (Value.int 1) []).1 (by decide) (by decide) []
  · exact (resolution_error_before_query scopedUserRepo
      [.eqCol "is_active" (Value.bool true)] (by decide) [] [] (by decide)
      "nope__gte" (Value.int 1) []).2.1 "nope" "gte" (by decide) (by decide) (by decide) []
  · exact (resolution_error_before_query scopedUserRepo
      [.eqCol "is_active" (Value.bool true)] (by decide) [] [] (by decide)
      "posts__missing" (Value.int 1) []).2.2.1 "posts" "missing" postDesc
      (by decide) (by decide) (by decide) (by decide) []
  · exact (resolution_error_before_query scopedUserRepo
      [.eqCol "is_active" (Value.bool true)] (by decide) [] [] (by decide)
      "x" (Value.int 1) []).2.2.2 "nosuch" (by decide) [] [] [] (by decide)

/-- C3: on a filter set matching zero rows, find_by returns ok none without
an error while find_by_or_raise fails with NoResultFound naming the entity
and the filter set; among the single-record operations of the error model
(find, find_by, find_by_or_raise, update, destroy — section 7 of the spec),
find_by alone treats zero matches as a normal result: find, update and
destroy fail with NoResultFound naming the entity and the id. -/
theorem find_by_none_vs_or_raise
    (repo : BaseRepository) (db : List Row) (params : List (String × Value)) (q : Query)
    (hq : __generate_query repo 1 0 none "asc" [] [] false params = .ok q)
    (hnone : ∀ r ∈ db, (q.conditions.all fun c => evalCond r c) = false) :
    find_by repo db none "asc" [] [] false params = .ok none
    ∧ find_by_or_raise repo db none "asc" [] [] false params
        = .error (.noResultFound
            (repo.model.name ++ " with attributes " ++ pyReprParams params ++ " not found."))
    ∧ (∀ (id : Value) (q2 : Query),
        __generate_query repo 1 0 none "asc" [] [] false [("id", id)] = .ok q2 →
        (∀ r ∈ db, (q2.conditions.all fun c => evalCond r c) = false) →
        find repo db id none "asc" [] [] false
            = .error (.noResultFound (repo.model.name ++ " with id " ++ id.pyStr ++ " not found."))
        ∧ (∀ ups, update repo db id ups
            = .error (.noResultFound (repo.model.name ++ " with id " ++ id.pyStr ++ " not found.")))
        ∧ destroy repo db id
            = .error (.noResultFound (repo.model.name ++ " with id " ++ id.pyStr ++ " not found."))) := by
  have hfb : find_by repo db none "asc" [] [] false params = .ok none := by
    simp [find_by, hq, runQuery_eq_nil db q hnone]
  refine ⟨hfb, ?_, ?_⟩
  · simp [find_by_or_raise, hfb]
  · intro id q2 hq2 hnone2
    have hfind : find repo db id none "asc" [] [] false
        = .error (.noResultFound (repo.model.name ++ " with id " ++ id.pyStr ++ " not found.")) := by
      simp [find, hq2, runQuery_eq_nil db q2 hnone2]
    exact ⟨hfind, fun ups => by simp [update, hfind], by simp [destroy, hfind]⟩

/-- Witness for the C3 theorem on the sample repository: no user has age 99,
so find_by yields none, find_by_or_raise raises naming User and the filter
set, and find, update and destroy raise for the unmatched id 7. -/
theorem find_by_none_vs_or_raise_witness :
    find_by userRepo [aliceRow, bobRow] none "asc" [] [] false [("age", Value.int 99)] = .ok none
    ∧ find_by_or_raise userRepo [aliceRow, bobRow] none "asc" [] [] false [("age", Value.int 99)]
        = .error (.noResultFound
            ("User" ++ " with attributes " ++ pyReprParams [("age", Value.int 99)] ++ " not found."))
    ∧ update userRepo [aliceRow, bobRow] (Value.int 7) [("name", Value.str "x")]
        = .error (.noResultFound ("User" ++ " with id " ++ (Value.int 7).pyStr ++ " not found.")) := by
  have h := find_by_none_vs_or_raise userRepo [aliceRow, bobRow] [("age", Value.int 99)]
    { conditions := [.eqCol "age" (Value.int 99)], joinedloadOpts := [], lazyloadOpts := [],
      orderBy := none, limitN := 1, offsetN := 0 }
    (by decide) (by decide)
  refine ⟨h.1, h.2.1, ?_⟩
  exact (h.2.2 (Value.int 7)
    { conditions := [.eqCol "id" (Value.int 7)], joinedloadOpts := [], lazyloadOpts := [],
      orderBy := none, limitN := 1, offsetN := 0 }
    (by decide) (by decide)).2.1 [("name", Value.str "x")]

/-- C4 counterexample: the key posts__title__bogus has a last segment that is
not in the operator table and, with three segments remaining, no valid
one-hop interpretation of the full remaining sequence; the claim demands a
compile-time failure, yet compilation succeeds, building the one-hop
condition from the first two segments and dropping the third. -/
theorem unknown_op_silent_extra_segment
    : OPERATORS.contains "bogus" = false
    ∧ splitDunder "posts__title__bogus" = ["posts", "title", "bogus"]
    ∧ __get_conditions userModel [("posts__title__bogus", Value.str "x")]
        = .ok [.anyRel "posts" "title" "exact" (Value.str "x")]
    ∧ ∀ e, __get_conditions userModel [("posts__title__bogus", Value.str "x")]
        ≠ .error e := by
  refine ⟨by decide, by decide, by decide, ?_⟩
  intro e h
  have h2 : __get_conditions userModel [("posts__title__bogus", Value.str "x")]
      = .ok [.anyRel "posts" "title" "exact" (Value.str "x")] := by decide
  rw [h] at h2
  exact absurd h2 (by simp)

/-- C4 amended: when the last segment of a separator-bearing key is not an
operator name it is not consumed and the operator stays exact, but only the
first two remaining segments are interpreted as a relationship-hop filter —
segments beyond them, the unknown trailing token included, are silently
ignored; compilation fails exactly when that first-two-segment
interpretation fails: the first segment not resolving to a true
relationship attribute, or the second not resolving on the target. -/
theorem unknown_op_not_consumed
    (m : ModelDesc) (key : String) (v : Value) (p0 p1 lastSeg : String) (tail : List String)
    (hsplit : splitDunder key = p0 :: p1 :: tail)
    (hlast : (p0 :: p1 :: tail).getLast? = some lastSeg)
    (hnotop : OPERATORS.contains lastSeg = false) :
    (m.getAttr p0 = none →
      compileKey m key v = .error (.attributeError (noRelMsg m.name p0)))
    ∧ (m.getAttr p0 = some .column →
      compileKey m key v = .error (.attributeError (noRelMsg m.name p0)))
    ∧ (∀ t, m.getAttr p0 = some (.rel t) → t.columns.contains p1 = false →
      compileKey m key v = .error (.attributeError (noAttrMsg t.name p1)))
    ∧ (∀ t, m.getAttr p0 = some (.rel t) → t.columns.contains p1 = true →
      compileKey m key v = .ok (.anyRel p0 p1 "exact" v)) := by
  have hpop : popOp (splitDunder key) = ("exact", p0 :: p1 :: tail) := by
    rw [hsplit]
    exact popOp_keeps _ lastSeg hlast hnotop
  have hlen : ¬((splitDunder key).length ≤ 1) := by rw [hsplit]; simp
  have hck := compileKey_of_hop m key v "exact" p0 p1 tail hlen hpop
  refine ⟨?_, ?_, ?_, ?_⟩
  · intro hattr; rw [hck, hattr]
  · intro hattr; rw [hck, hattr]
  · intro t hattr hcol
    rw [hck, hattr]
    simp at hcol
    simp [hcol]
  · intro t hattr hcol
    rw [hck, hattr]
    simp at hcol
    simp [hcol]

/-- Witness for the amended C4 theorem at the counterexample key: the bogus
trailing token is dropped and the exact-operator one-hop condition on
posts.title is built. -/
theorem unknown_op_not_consumed_witness :
    compileKey userModel "posts__title__bogus" (Value.str "x")
      = .ok (.anyRel "posts" "title" "exact" (Value.str "x")) := by
  exact (unknown_op_not_consumed userModel "posts__title__bogus" (Value.str "x")
    "posts" "title" "bogus" ["bogus"] (by decide) (by decide) (by decide)).2.2.2
    postDesc (by decide) (by decide)

/-- C5: a key of the form relationship__field__operator or
relationship__field fails to compile when the first segment does not
resolve or resolves to a plain column rather than a true relationship, and
when the second segment does not resolve on the target entity; otherwise
it builds the existential condition, whose truth on a row is exactly the
existence of one related row satisfying the operator on the target column;
filtering never duplicates a parent row, the matched rows forming a
sublist of the table. -/
theorem one_hop_filter
    (m : ModelDesc) (key : String) (v : Value) (p0 p1 : String) :
    (∀ opn, splitDunder key = [p0, p1, opn] → OPERATORS.contains opn = true →
      (m.getAttr p0 = none →
        compileKey m key v = .error (.attributeError (noRelMsg m.name p0)))
      ∧ (m.getAttr p0 = some .column →
        compileKey m key v = .error (.attributeError (noRelMsg m.name p0)))
      ∧ (∀ t, m.getAttr p0 = some (.rel t) → t.columns.contains p1 = false →
        compileKey m key v = .error (.attributeError (noAttrMsg t.name p1)))
      ∧ (∀ t, m.getAttr p0 = some (.rel t) → t.columns.contains p1 = true →
        compileKey m key v = .ok (.anyRel p0 p1 opn v)))
    ∧ (splitDunder key = [p0, p1] → OPERATORS.contains p1 = false →
      (m.getAttr p0 = none →
        compileKey m key v = .error (.attributeError (noRelMsg m.name p0)))
      ∧ (m.getAttr p0 = some .column →
        compileKey m key v = .error (.attributeError (noRelMsg m.name p0)))
      ∧ (∀ t, m.getAttr p0 = some (.rel t) → t.columns.contains p1 = false →
        compileKey m key v = .error (.attributeError (noAttrMsg t.name p1)))
      ∧ (∀ t, m.getAttr p0 = some (.rel t) → t.columns.contains p1 = true →
        compileKey m key v = .ok (.anyRel p0 p1 "exact" v)))
    ∧ (∀ (r : Row) (children : List TargetRow) (opn : String),
        r.related.lookup p0 = some children →
        (evalCond r (.anyRel p0 p1 opn v) = true ↔
          ∃ t ∈ children, evalTargetOp opn t p1 v = true))
    ∧ (∀ (db : List Row) (c : Cond), (db.filter fun r => evalCond r c).Sublist db) := by
  refine ⟨?_, ?_, ?_, ?_⟩
  · intro opn hsplit hop
    have hpop : popOp (splitDunder key) = (opn, [p0, p1]) := by
      rw [hsplit, popOp_pops [p0, p1, opn] opn (by simp) hop]
      simp
    have hck := compileKey_of_hop m key v opn p0 p1 [] (by rw [hsplit]; simp) hpop
    refine ⟨fun hattr => by rw [hck, hattr], fun hattr => by rw [hck, hattr], ?_, ?_⟩
    · intro t hattr hcol
      rw [hck, hattr]
      simp at hcol
      simp [hcol]
    · intro t hattr hcol
      rw [hck, hattr]
      simp at hcol
      simp [hcol]
  · intro hsplit hnotop
    have hpop : popOp (splitDunder key) = ("exact", [p0, p1]) := by
      rw [hsplit]
      exact popOp_keeps _ p1 (by simp) hnotop
    have hck := compileKey_of_hop m key v "exact" p0 p1 [] (by rw [hsplit]; simp) hpop
    refine ⟨fun hattr => by rw [hck, hattr], fun hattr => by rw [hck, hattr], ?_, ?_⟩
    · intro t hattr hcol
      rw [hck, hattr]
      simp at hcol
      simp [hcol]
    · intro t hattr hcol
      rw [hck, hattr]
      simp at hcol
      simp [hcol]
  · intro r children opn hrel
    simp [evalCond, hrel]
  · intro db c
    exact List.filter_sublist db

/-- Witness for the C5 theorem: the key posts__title__icontains compiles to
the existential condition on the sample model, that condition holds on the
row with a matching post and its truth is the stated existence, and
filtering the two-row table yields a sublist. -/
theorem one_hop_filter_witness :
    compileKey userModel "posts__title__icontains" (Value.str "ELL")
      = .ok (.anyRel "posts" "title" "icontains" (Value.str "ELL"))
    ∧ (evalCond aliceRow (.anyRel "posts" "title" "icontains" (Value.str "ELL")) = true ↔
        ∃ t ∈ [({ fields := [("id", Value.int 10), ("title", Value.str "Hello")] } : TargetRow)],
          evalTargetOp "icontains" t "title" (Value.str "ELL") = true) := by
  have h := one_hop_filter userModel "posts__title__icontains" (Value.str "ELL") "posts" "title"
  exact ⟨(h.1 "icontains" (by decide) (by decide)).2.2.2 postDesc (by decide) (by decide),
    h.2.2.1 aliceRow _ "icontains" (by decide)⟩

/-- C6: a field__in key compiles to the membership condition; on a sequence
value the condition holds iff the stored column value is one of the
sequence elements, and on a non-sequence value — treated as a one-element
candidate set — it holds iff the column equals that single value. -/
theorem in_operator_membership
    (m : ModelDesc) (key field : String) (v : Value) (a : Attr)
    (hsplit : splitDunder key = [field, "in"])
    (hattr : m.getAttr field = some a)
    (r : Row) (x : Value) (hx : r.fields.lookup field = some x) :
    compileKey m key v = .ok (.op field "in" v)
    ∧ (∀ l : List Prim,
        (evalCond r (.op field "in" (.list l)) = true ↔ ∃ p, x = .prim p ∧ p ∈ l))
    ∧ (∀ p : Prim, (evalCond r (.op field "in" (.prim p)) = true ↔ x = .prim p)) := by
  refine ⟨?_, ?_, ?_⟩
  · have hpop : popOp (splitDunder key) = ("in", [field]) := by
      rw [hsplit, popOp_pops [field, "in"] "in" (by simp) (by decide)]
      simp
    rw [compileKey_of_single m key v "in" field (by rw [hsplit]; simp) hpop, hattr]
  · intro l
    have he : evalCond r (.op field "in" (.list l)) = evalOp "in" x (.list l) := by
      simp [evalCond, hx]
    cases x with
    | prim p =>
        rw [he, show evalOp "in" (Value.prim p) (Value.list l) = decide (p ∈ l) from rfl]
        simp
    | list l0 =>
        rw [he, show evalOp "in" (Value.list l0) (Value.list l) = false from rfl]
        simp
  · intro p
    have he : evalCond r (.op field "in" (.prim p)) = evalOp "in" x (.prim p) := by
      simp [evalCond, hx]
    rw [he, show evalOp "in" x (.prim p) = decide (x = .prim p) from rfl]
    simp

/-- Witness for the C6 theorem on the sample row with age 30: the key age__in
compiles to the membership condition, membership in the list holds exactly
when 30 is listed, and the single-value form is plain equality. -/
theorem in_operator_membership_witness :
    compileKey userModel "age__in" (.list [.int 18, .int 30]) = .ok (.op "age" "in" (.list [.int 18, .int 30]))
    ∧ (evalCond aliceRow (.op "age" "in" (.list [.int 18, .int 30])) = true ↔
        ∃ p, Value.int 30 = .prim p ∧ p ∈ [Prim.int 18, Prim.int 30]) := by
  have h := in_operator_membership userModel "age__in" "age" (.list [.int 18, .int 30])
    .column (by decide) (by decide) aliceRow (Value.int 30) (by decide)
  exact ⟨h.1, h.2.1 [Prim.int 18, Prim.int 30]⟩

/-- C7: whenever count succeeds with n, exists returns the truth of n being
positive — so exists is ok true exactly when at least one row matches —
and count returns the number of rows of the table satisfying the merged
conditions, in particular ok 0 when no row matches. -/
theorem exists_iff_count_pos
    (repo : BaseRepository) (db : List Row) (disable : Bool)
    (params : List (String × Value)) (dconds econds : List Cond)
    (hd : __get_conditions repo.model repo.default_scope = .ok dconds)
    (he : __get_conditions repo.model params = .ok econds) :
    (∀ n, count repo db disable params = .ok n →
        exists_ repo db disable params = .ok (decide (n > 0)))
    ∧ (exists_ repo db disable params = .ok true ↔
        0 < (db.filter fun r =>
          ((if disable then [] else dconds) ++ econds).all fun c => evalCond r c).length)
    ∧ count repo db disable params
        = .ok ((db.filter fun r =>
            ((if disable then [] else dconds) ++ econds).all fun c => evalCond r c).length)
    ∧ ((∀ r ∈ db,
          (((if disable then [] else dconds) ++ econds).all fun c => evalCond r c) = false) →
        count repo db disable params = .ok 0) := by
  have hcount : count repo db disable params
      = .ok ((db.filter fun r =>
          ((if disable then [] else dconds) ++ econds).all fun c => evalCond r c).length) := by
    cases disable with
    | false => simp [count, hd, he]
    | true => simp [count, he]
  refine ⟨?_, ?_, hcount, ?_⟩
  · intro n hn
    simp [exists_, hn]
  · rw [exists_, hcount]
    simp
  · intro hnone
    rw [hcount]
    have hfil : (db.filter fun r =>
        ((if disable then [] else dconds) ++ econds).all fun c => evalCond r c) = [] := by
      rw [List.filter_eq_nil_iff]
      intro r hr
      simp [hnone r hr]
    rw [hfil]
    rfl

/-- Witness for the C7 theorem on the scoped sample repository: one of the
two rows is active, count is ok 1 and exists is ok true. -/
theorem exists_iff_count_pos_witness :
    exists_ scopedUserRepo [aliceRow, bobRow] false [] = .ok (decide (1 > 0)) := by
  exact (exists_iff_count_pos scopedUserRepo [aliceRow, bobRow] false []
    [.eqCol "is_active" (Value.bool true)] [] (by decide) (by decide)).1 1 (by decide)

/-- C8 counterexample: the value "ASC" differs from "asc", so the claim
requires descending order for it, but the read path lowercases
sorted_order first and applies ascending order (the Bool true in the
orderBy component of the generated query). -/
theorem sorted_order_asc_counterexample :
    ("ASC" = "asc" → False)
    ∧ __generate_query userRepo 100 0 (some "age") "ASC" [] [] false []
        = .ok { conditions := [], joinedloadOpts := [], lazyloadOpts := [],
                orderBy := some ("age", true), limitN := 100, offsetN := 0 } := by
  exact ⟨by decide, by decide⟩

/-- C8 amended: for a read operation given a resolvable sorted_by field, the
applied direction is ascending exactly when the lowercased sorted_order
equals "asc", and descending otherwise. -/
theorem sorted_order_lowercase_direction
    (repo : BaseRepository) (lim off : Nat) (sb so : String) (jl ll : List String)
    (dis : Bool) (params : List (String × Value)) (q : Query)
    (hq : __generate_query repo lim off (some sb) so jl ll dis params = .ok q) :
    q.orderBy = some (sb, lowerStr so == "asc") := by
  unfold __generate_query at hq
  cases hdef : (if dis then Except.ok [] else __get_conditions repo.model repo.default_scope) with
  | error e => rw [hdef] at hq; exact absurd hq (by simp)
  | ok dcs =>
      rw [hdef] at hq
      cases hexp : __get_conditions repo.model params with
      | error e => simp only [hexp] at hq; exact absurd hq (by simp)
      | ok ecs =>
          simp only [hexp, _apply_order_by] at hq
          cases hattr : repo.model.getAttr sb with
          | none => simp only [hattr] at hq; exact absurd hq (by simp)
          | some a =>
              by_cases hcase : (lowerStr so == "asc") = true
              · simp only [hattr, hcase, if_true] at hq
                injection hq with h
                rw [← h, hcase]
              · rw [Bool.not_eq_true] at hcase
                simp only [hattr, hcase, Bool.false_eq_true, if_false] at hq
                injection hq with h
                rw [← h, hcase]

/-- Witness for the amended C8 theorem: the mixed-case value "DeSc" lowers to
"desc", so the generated query carries a descending orderBy. -/
theorem sorted_order_lowercase_direction_witness :
    ({ conditions := [], joinedloadOpts := [], lazyloadOpts := [],
       orderBy := some ("age", false), limitN := 100, offsetN := 0 } : Query).orderBy
      = some ("age", lowerStr "DeSc" == "asc") := by
  exact sorted_order_lowercase_direction userRepo 100 0 "age" "DeSc" [] [] true [] _ (by decide)

/-- C9: with no filter expressions at all, the compiled condition list is
empty, so update_all applies the assignments to every row and destroy_all
deletes every row, both returning the full length of the table at call
time. -/
theorem empty_filters_bulk_all_rows
    (repo : BaseRepository) (db : List Row) (updates : List (String × Value)) :
    __get_conditions repo.model [] = .ok []
    ∧ update_all repo db updates []
        = .ok (db.length, db.map fun r => { r with fields := setFields r.fields updates })
    ∧ destroy_all repo db [] = .ok (db.length, []) := by
  refine ⟨rfl, ?_, ?_⟩
  · simp [update_all, __get_conditions]
  · simp [destroy_all, __get_conditions]

/-- C10: update and destroy take no disable_default_scope parameter and
locate the row through find with the default scope enabled; on a table in
which every row carrying the requested id violates some default-scope
condition, both fail with the NoResultFound error of find — the row can
never be updated or destroyed through them — and, the result being an
error, no updated table state is produced. -/
theorem default_scope_blocks_update_destroy
    (repo : BaseRepository) (db : List Row) (id : Value) (ups : List (String × Value))
    (dconds : List Cond) (a : Attr)
    (hds : __get_conditions repo.model repo.default_scope = .ok dconds)
    (hid : repo.model.getAttr "id" = some a)
    (hexcl : ∀ r ∈ db, evalCond r (.eqCol "id" id) = true →
        ∃ c ∈ dconds, evalCond r c = false) :
    update repo db id ups
        = .error (.noResultFound (repo.model.name ++ " with id " ++ id.pyStr ++ " not found."))
    ∧ destroy repo db id
        = .error (.noResultFound (repo.model.name ++ " with id " ++ id.pyStr ++ " not found."))
    ∧ find repo db id none "asc" [] [] false
        = .error (.noResultFound (repo.model.name ++ " with id " ++ id.pyStr ++ " not found."))
    ∧ (∀ res, update repo db id ups ≠ .ok res) := by
  have hkey : compileKey repo.model "id" id = .ok (.eqCol "id" id) := by
    rw [compileKey_bare repo.model "id" id (by decide), hid]
  have hconds : __get_conditions repo.model [("id", id)] = .ok [.eqCol "id" id] := by
    simp [__get_conditions, hkey]
  have hgen : __generate_query repo 1 0 none "asc" [] [] false [("id", id)]
      = .ok { conditions := dconds ++ [.eqCol "id" id], joinedloadOpts := [], lazyloadOpts := [],
              orderBy := none, limitN := 1, offsetN := 0 } := by
    simp [__generate_query, hds, hconds]
  have hall : ∀ r ∈ db, ((dconds ++ [Cond.eqCol "id" id]).all fun c => evalCond r c) = false := by
    intro r hr
    cases hidv : evalCond r (.eqCol "id" id) with
    | false => simp [List.all_append, hidv]
    | true =>
        obtain ⟨c, hc, hcf⟩ := hexcl r hr hidv
        have : ¬(∀ x ∈ dconds ++ [Cond.eqCol "id" id], evalCond r x = true) := by
          intro hforall
          rw [hforall c (List.mem_append_left _ hc)] at hcf
          exact absurd hcf (by simp)
        rw [← Bool.not_eq_true]
        intro hx
        exact this (List.all_eq_true.mp hx)
  have hfind : find repo db id none "asc" [] [] false
      = .error (.noResultFound (repo.model.name ++ " with id " ++ id.pyStr ++ " not found.")) := by
    have hrq := runQuery_eq_nil db
      { conditions := dconds ++ [.eqCol "id" id], joinedloadOpts := [], lazyloadOpts := [],
        orderBy := none, limitN := 1, offsetN := 0 } hall
    simp [find, hgen, hrq]
  refine ⟨by simp [update, hfind], by simp [destroy, hfind], hfind, ?_⟩
  intro res hok
  rw [show update repo db id ups
      = .error (.noResultFound (repo.model.name ++ " with id " ++ id.pyStr ++ " not found.")) from
      by simp [update, hfind]] at hok
  exact absurd hok (by simp)

/-- Witness for the C10 theorem at the scoped sample repository: Bob, the
only row with id 2, is inactive and thus invisible under the default
scope, so update and destroy on id 2 fail with the not-found error. -/
theorem default_scope_blocks_update_destroy_witness :
    update scopedUserRepo [aliceRow, bobRow] (Value.int 2) [("name", Value.str "x")]
      = .error (.noResultFound ("User" ++ " with id " ++ (Value.int 2).pyStr ++ " not found.")) := by
  exact (default_scope_blocks_update_destroy scopedUserRepo [aliceRow, bobRow] (Value.int 2)
    [("name", Value.str "x")] [.eqCol "is_active" (Value.bool true)] .column
    (by decide) (by decide) (by decide)).1

end FastapiRepository
